import Mathlib

/-!
Verification of the ICS-23 proof adapter and the tree-cache contracts of a
Jellyfish Merkle Tree implementation.

Bytes are modelled as `Nat` values (each `< 256`) in a `List Nat`; machine
integers are `Nat` with explicit reduction modulo `2 ^ 32` where the source
performs wrapping 32-bit arithmetic.  Fallible operations (Rust panics and
`Result` errors) are modelled with `Option` and `Except`.
-/

namespace Jmt

/-! ### SHA-256

Modelled from the spec: `KeyHash` is the 32-byte SHA-256 digest of the
preimage bytes (`impl From<&[u8]> for KeyHash` is not part of the excerpted
sources; the spec fixes the hash as SHA-256 via `prehash_compared_key =
SHA-256` and the 32-byte hash domain).  This is a complete executable
SHA-256 over byte lists. -/

/-- Reduce to a 32-bit word. -/
def w32 (x : Nat) : Nat := x % 4294967296

/-- Right rotation of a 32-bit word. -/
def rotr32 (n x : Nat) : Nat := w32 ((x >>> n) ||| (x <<< (32 - n)))

/-- Bitwise complement of a 32-bit word. -/
def not32 (x : Nat) : Nat := x ^^^ 4294967295

def shaCh (x y z : Nat) : Nat := (x &&& y) ^^^ (not32 x &&& z)

def shaMaj (x y z : Nat) : Nat := (x &&& y) ^^^ (x &&& z) ^^^ (y &&& z)

def shaS0 (x : Nat) : Nat := rotr32 2 x ^^^ rotr32 13 x ^^^ rotr32 22 x

def shaS1 (x : Nat) : Nat := rotr32 6 x ^^^ rotr32 11 x ^^^ rotr32 25 x

def shas0 (x : Nat) : Nat := rotr32 7 x ^^^ rotr32 18 x ^^^ (x >>> 3)

def shas1 (x : Nat) : Nat := rotr32 17 x ^^^ rotr32 19 x ^^^ (x >>> 10)

/-- The 64 SHA-256 round constants, in decimal. -/
def shaK : List Nat :=
  [1116352408, 1899447441, 3049323471, 3921009573, 961987163,
   1508970993, 2453635748, 2870763221, 3624381080, 310598401,
   607225278, 1426881987, 1925078388, 2162078206, 2614888103,
   3248222580, 3835390401, 4022224774, 264347078, 604807628,
   770255983, 1249150122, 1555081692, 1996064986, 2554220882,
   2821834349, 2952996808, 3210313671, 3336571891, 3584528711,
   113926993, 338241895, 666307205, 773529912, 1294757372,
   1396182291, 1695183700, 1986661051, 2177026350, 2456956037,
   2730485921, 2820302411, 3259730800, 3345764771, 3516065817,
   3600352804, 4094571909, 275423344, 430227734, 506948616,
   659060556, 883997877, 958139571, 1322822218, 1537002063,
   1747873779, 1955562222, 2024104815, 2227730452, 2361852424,
   2428436474, 2756734187, 3204031479, 3329325298]

/-- The SHA-256 initial hash state, in decimal. -/
def shaH0 : List Nat :=
  [1779033703, 3144134277, 1013904242,
   2773480762, 1359893119, 2600822924,
   528734635, 1541459225]

/-- Big-endian 8-byte encoding of a 64-bit value. -/
def be64 (n : Nat) : List Nat :=
  (List.range 8).map (fun i => (n >>> (8 * (7 - i))) % 256)

/-- Big-endian 4-byte encoding of a 32-bit word. -/
def be32 (n : Nat) : List Nat :=
  [(n >>> 24) % 256, (n >>> 16) % 256, (n >>> 8) % 256, n % 256]

/-- SHA-256 padding: append `0x80`, zeros, and the 64-bit message bit length
so the total length is a multiple of 64 bytes. -/
def sha256Pad (msg : List Nat) : List Nat :=
  let len := msg.length
  let padZeros := (64 - ((len + 9) % 64)) % 64
  msg ++ 128 :: List.replicate padZeros 0 ++ be64 (8 * len)

/-- Group bytes into big-endian 32-bit words. -/
def bytesToWords : List Nat → List Nat
  | b0 :: b1 :: b2 :: b3 :: rest =>
    (b3 ||| (b2 <<< 8) ||| (b1 <<< 16) ||| (b0 <<< 24)) :: bytesToWords rest
  | _ => []

/-- Extend a 16-word block to the 64-word message schedule (`k` words left
to append). -/
def shaExtend : Nat → List Nat → List Nat
  | 0, w => w
  | k + 1, w =>
    let t := w.length
    let nw := w32 (shas1 (w.getD (t - 2) 0) + w.getD (t - 7) 0 +
                   shas0 (w.getD (t - 15) 0) + w.getD (t - 16) 0)
    shaExtend k (w ++ [nw])

/-- Working state of the compression function. -/
structure ShaState where
  a : Nat
  b : Nat
  c : Nat
  d : Nat
  e : Nat
  f : Nat
  g : Nat
  h : Nat

/-- One round of the SHA-256 compression function. -/
def shaRound (st : ShaState) (kt wt : Nat) : ShaState :=
  let t1 := w32 (st.h + shaS1 st.e + shaCh st.e st.f st.g + kt + wt)
  let t2 := w32 (shaS0 st.a + shaMaj st.a st.b st.c)
  ⟨w32 (t1 + t2), st.a, st.b, st.c, w32 (st.d + t1), st.e, st.f, st.g⟩

/-- Process one 64-byte block, updating the 8-word hash state. -/
def shaProcessBlock (h : List Nat) (block : List Nat) : List Nat :=
  let w := shaExtend 48 (bytesToWords block)
  let init : ShaState :=
    ⟨h.getD 0 0, h.getD 1 0, h.getD 2 0, h.getD 3 0,
     h.getD 4 0, h.getD 5 0, h.getD 6 0, h.getD 7 0⟩
  let st := (shaK.zip w).foldl (fun st p => shaRound st p.1 p.2) init
  [w32 (h.getD 0 0 + st.a), w32 (h.getD 1 0 + st.b),
   w32 (h.getD 2 0 + st.c), w32 (h.getD 3 0 + st.d),
   w32 (h.getD 4 0 + st.e), w32 (h.getD 5 0 + st.f),
   w32 (h.getD 6 0 + st.g), w32 (h.getD 7 0 + st.h)]

/-- Fold the compression function over all 64-byte blocks; the fuel
argument bounds the number of blocks (structural recursion so the
definition evaluates inside the kernel). -/
def shaBlocksGo : Nat → List Nat → List Nat → List Nat
  | 0, h, _ => h
  | fuel + 1, h, msg =>
    if msg.length < 64 then h
    else shaBlocksGo fuel (shaProcessBlock h (msg.take 64)) (msg.drop 64)

/-- Fold the compression function over all 64-byte blocks
(`msg.length / 64 + 1` units of fuel always suffice). -/
def shaBlocks (h : List Nat) (msg : List Nat) : List Nat :=
  shaBlocksGo (msg.length / 64 + 1) h msg

/-- SHA-256 of a byte list, as a 32-byte list. -/
def sha256 (msg : List Nat) : List Nat :=
  ((shaBlocks shaH0 (sha256Pad msg)).map be32).flatten

/-! ### Constants of the tree

Modelled from the spec: the domain-separator byte strings and the
placeholder hash are defined in crate modules that are not part of the
excerpted sources (`proof.rs` / `lib.rs`).  The spec fixes them as stable
byte strings (`LEAF_DOMAIN_SEPARATOR`, `INTERNAL_DOMAIN_SEPARATOR`, the
32-byte `SPARSE_MERKLE_PLACEHOLDER_HASH`); the values below are the
crate's canonical choices (the internal separator is 16 bytes long,
matching the `Vec::with_capacity(16 + 32)` in the translated source). -/

/-- Constant `INTERNAL_DOMAIN_SEPARATOR`: the bytes of `"JMT::IntrnalNode"`. -/
def INTERNAL_DOMAIN_SEPARATOR : List Nat :=
  [74, 77, 84, 58, 58, 73, 110, 116, 114, 110, 97, 108, 78, 111, 100, 101]

/-- Constant `LEAF_DOMAIN_SEPARATOR`: the bytes of `"JMT::LeafNode"`. -/
def LEAF_DOMAIN_SEPARATOR : List Nat :=
  [74, 77, 84, 58, 58, 76, 101, 97, 102, 78, 111, 100, 101]

/-- Constant `SPARSE_MERKLE_PLACEHOLDER_HASH`: the bytes of
`"SPARSE_MERKLE_PLACEHOLDER_HASH__"` (32 bytes). -/
def SPARSE_MERKLE_PLACEHOLDER_HASH : List Nat :=
  [83, 80, 65, 82, 83, 69, 95, 77, 69, 82, 75, 76, 69, 95, 80, 76, 65, 67,
   69, 72, 79, 76, 68, 69, 82, 95, 72, 65, 83, 72, 95, 95]

/-! ### ICS-23 protobuf shapes

Numeric enum codes follow the ics23 protobuf: `HashOp`: `NO_HASH = 0`,
`SHA256 = 1`; `LengthOp`: `NO_PREFIX = 0`.  The Rust fields `prefix` /
`suffix` are named `pfx` / `sfx` here. -/

/-- Code of `ics23::HashOp::NoHash.into()`. -/
def HASHOP_NO_HASH : Nat := 0

/-- Code of `ics23::HashOp::Sha256.into()`. -/
def HASHOP_SHA256 : Nat := 1

/-- Code of `ics23::LengthOp::NoPrefix.into()`. -/
def LENGTHOP_NOPFX : Nat := 0

/-- Shape of `ics23::InnerOp` (field `pfx` is Rust `prefix`, `sfx` is `suffix`). -/
structure InnerOp where
  hashOp : Nat
  pfx : List Nat
  sfx : List Nat
deriving DecidableEq

/-- Shape of `ics23::LeafOp` (field `pfx` is Rust `prefix`). -/
structure LeafOp where
  hashOp : Nat
  prehashKey : Nat
  prehashValue : Nat
  lengthOp : Nat
  pfx : List Nat
deriving DecidableEq

/-- Shape of `ics23::ExistenceProof`. -/
structure ExistenceProof where
  key : List Nat
  value : List Nat
  path : List InnerOp
  leaf : Option LeafOp
deriving DecidableEq

/-- Shape of `ics23::NonExistenceProof`. -/
structure NonExistenceProof where
  key : List Nat
  left : Option ExistenceProof
  right : Option ExistenceProof
deriving DecidableEq

/-- Shape of `ics23::InnerSpec` (fields `minPfxLen` / `maxPfxLen` are Rust
`min_prefix_length` / `max_prefix_length`). -/
structure InnerSpec where
  hashOp : Nat
  childOrder : List Nat
  minPfxLen : Nat
  maxPfxLen : Nat
  childSize : Nat
  emptyChild : List Nat
deriving DecidableEq

/-- Shape of `ics23::ProofSpec`. -/
structure ProofSpec where
  prehashComparedKey : Nat
  prehashComparedValue : Nat
  leafSpec : Option LeafOp
  innerSpec : Option InnerSpec
  minDepth : Nat
  maxDepth : Nat
deriving DecidableEq

/-! ### The native proof shapes used by the adapter -/

/-- The leaf of a `SparseMerkleProof`: key hash and value hash
(`SparseMerkleLeafNode`). -/
structure SmtLeaf where
  keyHash : List Nat
  valueHash : List Nat
deriving DecidableEq

/-- Native `SparseMerkleProof`: optional leaf plus the sibling hashes
(leaf-first toward the root, trailing placeholders omitted). -/
structure SparseMerkleProof where
  leaf : Option SmtLeaf
  siblings : List (List Nat)
deriving DecidableEq

/-- Native `ExclusionProof`: the three non-membership shapes. -/
inductive ExclusionProof where
  | Leftmost (leftmost_right_proof : SparseMerkleProof)
  | Middle (leftmost_right_proof rightmost_left_proof : SparseMerkleProof)
  | Rightmost (rightmost_left_proof : SparseMerkleProof)
deriving DecidableEq

/-! ### `sparse_merkle_proof_to_ics23_existence_proof`

Translation of `src/tree/ics23_impl.rs` lines 11-71.  The Rust loop
`for byte_idx in (0..32).rev() { for bit_idx in 0..8 { .. } }` is embedded
as a fold over the explicit list of `(byte_idx, bit_idx)` pairs in
iteration order, carrying the mutable `skip` and `sibling_idx` counters.
The out-of-bounds panics (`256 - len` underflow on `usize`, and
`siblings[sibling_idx]` indexing) are modelled as `none`. -/

/-- The `(byte_idx, bit_idx)` pairs visited by the nested loops, in
order: `byte_idx` from 31 down to 0, `bit_idx` from 0 up to 7. -/
def allBitPositions : List (Nat × Nat) :=
  (((List.range 32).reverse).map
    (fun byteIdx => (List.range 8).map (fun bitIdx => (byteIdx, bitIdx)))).flatten

/-- The `InnerOp` pushed for one consumed bit: for bit 1 the node is the
right child (`pfx = INTERNAL_DOMAIN_SEPARATOR ++ sibling`, empty `sfx`);
for bit 0 it is the left child (`pfx = INTERNAL_DOMAIN_SEPARATOR`,
`sfx = sibling`). -/
def innerOpForBit (bit : Nat) (sibling : List Nat) : InnerOp :=
  if bit = 1 then
    { hashOp := HASHOP_SHA256, pfx := INTERNAL_DOMAIN_SEPARATOR ++ sibling, sfx := [] }
  else
    { hashOp := HASHOP_SHA256, pfx := INTERNAL_DOMAIN_SEPARATOR, sfx := sibling }

/-- The loop body over the remaining positions, with the current `skip`
and `sibling_idx` counters.  `none` models the Rust indexing panic. -/
def pathLoop (keyHash : List Nat) (siblings : List (List Nat)) :
    List (Nat × Nat) → Nat → Nat → Option (List InnerOp)
  | [], _, _ => some []
  | pos :: rest, skip, sibIdx =>
    if skip > 0 then pathLoop keyHash siblings rest (skip - 1) sibIdx
    else
      match siblings.get? sibIdx with
      | none => none
      | some sib =>
        let bit := ((keyHash.getD pos.1 0) >>> pos.2) &&& 1
        match pathLoop keyHash siblings rest skip (sibIdx + 1) with
        | none => none
        | some ops => some (innerOpForBit bit sib :: ops)

/-- Translation `sparse_merkle_proof_to_ics23_existence_proof(key, value, proof)`.
`key_hash` is the SHA-256 of the preimage `key` (the Rust
`key.as_slice().into()`); the `else none` branch models the `usize`
underflow panic of `256 - proof.siblings().len()`. -/
def sparse_merkle_proof_to_ics23_existence_proof
    (key value : List Nat) (proof : SparseMerkleProof) : Option ExistenceProof :=
  let key_hash := sha256 key
  if proof.siblings.length ≤ 256 then
    match pathLoop key_hash proof.siblings allBitPositions
        (256 - proof.siblings.length) 0 with
    | none => none
    | some path =>
      some { key := key_hash
           , value := value
           , path := path
           , leaf := some { hashOp := HASHOP_SHA256
                          , prehashKey := HASHOP_NO_HASH
                          , prehashValue := HASHOP_SHA256
                          , lengthOp := LENGTHOP_NOPFX
                          , pfx := LEAF_DOMAIN_SEPARATOR } }
  else none

/-! ### Characterization of the path loop -/

/-- The bit consumed at loop position `p`: position `p` visits byte
`31 - p / 8` and reads bit `p % 8` of it. -/
def bitAtPos (keyHash : List Nat) (p : Nat) : Nat :=
  ((keyHash.getD (31 - p / 8) 0) >>> (p % 8)) &&& 1

/-- The expected path: one `InnerOp` per sibling, sibling `i` consumed at
loop position `256 - n + i` (the first `256 - n` positions are skipped). -/
def pathOps (keyHash : List Nat) (siblings : List (List Nat)) : List InnerOp :=
  (List.range siblings.length).map
    (fun i => innerOpForBit (bitAtPos keyHash (256 - siblings.length + i))
                            (siblings.getD i []))

/-- The ops produced by a skip-free run of the loop over positions `ps`,
consuming siblings from index `sibIdx` on. -/
def opsFromPositions (keyHash : List Nat) (siblings : List (List Nat)) :
    List (Nat × Nat) → Nat → List InnerOp
  | [], _ => []
  | pos :: rest, sibIdx =>
    innerOpForBit (((keyHash.getD pos.1 0) >>> pos.2) &&& 1) (siblings.getD sibIdx [])
      :: opsFromPositions keyHash siblings rest (sibIdx + 1)

/-- Big-endian value of a byte string (byte 0 is the most significant). -/
def bytesToNatBE (bytes : List Nat) : Nat :=
  bytes.foldl (fun acc b => acc * 256 + b) 0

/-- The spec's claim read literally: a genuinely MSB-first iteration over
the 256 key-hash bits would consume, at loop position `p`, the bit of
significance `255 - p`; with the first `256 - n` positions skipped this
is the path such an iteration would produce (one sibling per remaining
position, in order).  Defined only to compare against the translated
code. -/
def msbFirstPathOps (keyHash : List Nat) (siblings : List (List Nat)) : List InnerOp :=
  (List.range siblings.length).map
    (fun i =>
      innerOpForBit
        ((bytesToNatBE keyHash >>> (255 - (256 - siblings.length + i))) &&& 1)
        (siblings.getD i []))

/-! ### `exclusion_proof_to_ics23_nonexistence_proof` -/

/-- The reader interface used by the adapter: `preimage` is
`HasPreimage::preimage` for a key hash, and `get` is
`JellyfishMerkleTree::get` at the queried version (the tree `get` is
outside the excerpted sources; both are modelled as total lookup
functions, `none` standing for "reader has no entry").  The `version`
argument of the Rust method only selects the `get` snapshot and is
absorbed into `get`. -/
structure Reader where
  preimage : List Nat → Option (List Nat)
  get : List Nat → Option (List Nat)

/-- Translation `exclusion_proof_to_ics23_nonexistence_proof(key, version, proof)`
(`src/tree/ics23_impl.rs` lines 77-183).  Rust `anyhow!` errors and the
`expect("must have leaf")` panics are modelled as `Except.error`. -/
def exclusion_proof_to_ics23_nonexistence_proof
    (r : Reader) (key : List Nat) (proof : ExclusionProof) :
    Except String NonExistenceProof :=
  match proof with
  | .Leftmost leftmost_right_proof =>
    match leftmost_right_proof.leaf with
    | none => .error ("must have leaf")
    | some leaf =>
      match r.preimage leaf.keyHash with
      | none => .error ("missing preimage for key hash")
      | some key_left_proof =>
        match r.get leaf.keyHash with
        | none => .error ("missing value for key hash")
        | some value =>
          match sparse_merkle_proof_to_ics23_existence_proof key_left_proof value
              leftmost_right_proof with
          | none => .error ("existence proof construction panicked")
          | some ep => .ok { key := leaf.keyHash, left := none, right := some ep }
  | .Middle leftmost_right_proof rightmost_left_proof =>
    match leftmost_right_proof.leaf with
    | none => .error ("must have leaf")
    | some lleaf =>
      match r.get lleaf.keyHash with
      | none => .error ("missing value for key hash")
      | some value_leftmost =>
        match r.preimage lleaf.keyHash with
        | none => .error ("missing preimage for key hash")
        | some key_leftmost =>
          match sparse_merkle_proof_to_ics23_existence_proof key_leftmost
              value_leftmost leftmost_right_proof with
          | none => .error ("existence proof construction panicked")
          | some lep =>
            match rightmost_left_proof.leaf with
            | none => .error ("must have leaf")
            | some rleaf =>
              match r.get rleaf.keyHash with
              | none => .error ("missing value for key hash")
              | some value_rightmost =>
                match r.preimage rleaf.keyHash with
                | none => .error ("missing preimage for key hash")
                | some key_rightmost =>
                  match sparse_merkle_proof_to_ics23_existence_proof key_rightmost
                      value_rightmost rightmost_left_proof with
                  | none => .error ("existence proof construction panicked")
                  | some rep =>
                    .ok { key := key, left := some rep, right := some lep }
  | .Rightmost rightmost_left_proof =>
    match rightmost_left_proof.leaf with
    | none => .error ("must have leaf")
    | some rleaf =>
      match r.get rleaf.keyHash with
      | none => .error ("missing value for key hash")
      | some value_rightmost =>
        match r.preimage rleaf.keyHash with
        | none => .error ("missing preimage for key hash")
        | some key_rightmost =>
          match sparse_merkle_proof_to_ics23_existence_proof key_rightmost
              value_rightmost rightmost_left_proof with
          | none => .error ("existence proof construction panicked")
          | some rep => .ok { key := key, left := some rep, right := none }

/-! ### `ics23_spec` -/

/-- Function `ics23_spec()` (`src/tree/ics23_impl.rs` lines 218-240).  The Rust
`leaf_spec` sets `prehash_key: 0` literally (the `NO_HASH` code). -/
def ics23_spec : ProofSpec :=
  { prehashComparedKey := HASHOP_SHA256
  , prehashComparedValue := HASHOP_NO_HASH
  , leafSpec := some { hashOp := HASHOP_SHA256
                     , prehashKey := 0
                     , prehashValue := HASHOP_SHA256
                     , lengthOp := LENGTHOP_NOPFX
                     , pfx := LEAF_DOMAIN_SEPARATOR }
  , innerSpec := some { hashOp := HASHOP_SHA256
                      , childOrder := [0, 1]
                      , minPfxLen := INTERNAL_DOMAIN_SEPARATOR.length
                      , maxPfxLen := INTERNAL_DOMAIN_SEPARATOR.length
                      , childSize := 32
                      , emptyChild := SPARSE_MERKLE_PLACEHOLDER_HASH }
  , minDepth := 0
  , maxDepth := 64 }

/-! ### TreeCache

The `TreeCache` implementation is not among the excerpted sources (only
its tests are), so it is modelled from the spec, §4.3. -/

/-- Modelled from the spec: `PRE_GENESIS_VERSION = u64::MAX - 1`, the
sentinel version reserved for a root that exists before version 0. -/
def PRE_GENESIS_VERSION : Nat := 18446744073709551614

/-- A `NodeKey`: the version at which the node was written plus its
absolute nibble path from the root. -/
structure NodeKey where
  version : Nat
  nibblePath : List Nat
deriving DecidableEq

/-- Constructor `NodeKey::new_empty_path(version)`. -/
def NodeKey.new_empty_path (version : Nat) : NodeKey := ⟨version, []⟩

/-- Node variants (spec §3): the `Null` empty-tree marker, leaves, and
internal nodes (children as a nibble-indexed association list of child
hashes — enough structure for the cache contracts). -/
inductive Node where
  | Null
  | Leaf (keyHash : List Nat) (value : List Nat)
  | Internal (children : List (Nat × List Nat))
deriving DecidableEq

/-- Association-list lookup by `NodeKey` (the read side of
`MockTreeStore` / `TreeReader::get_node_option`). -/
def alookup {α : Type} : List (NodeKey × α) → NodeKey → Option α
  | [], _ => none
  | (k, v) :: rest, q => if q = k then some v else alookup rest q

/-- Modelled from the spec (§4.3): the cache contents — tentative root
key, live node cache, live stale set, frozen cache and frozen stale set,
and the batch version `next_version`. -/
structure TreeCache where
  rootNodeKey : NodeKey
  nodeCache : List (NodeKey × Node)
  staleNodeIndexCache : List (Nat × NodeKey)
  frozenNodeCache : List (NodeKey × Node)
  frozenStaleNodeIndexCache : List (Nat × NodeKey)
  nextVersion : Nat
deriving DecidableEq

/-- An `UpdateBatch`: the new nodes and the stale-node index produced by a
batch. -/
structure UpdateBatch where
  node_batch : List (NodeKey × Node)
  stale_node_index_batch : List (Nat × NodeKey)
deriving DecidableEq

/-- Modelled from the spec: `TreeCache::new(reader, next_version)` seeds
`root_node_key` from the root for `next_version - 1`, or the pre-genesis
slot, or starts empty (§4.3); at version 0 the cache bootstraps from the
pre-genesis slot when present (§3), and when starting empty it stages
the `Null` root marker at `(0, empty_path)` (§3: `Null` is "placed only
at `(version, empty_path)`"; scenario S4 counts this node in the final
batch).  The reader is a total lookup, so construction cannot fail. -/
def TreeCache.new (store : List (NodeKey × Node)) (next_version : Nat) : TreeCache :=
  if next_version = 0 then
    match alookup store (NodeKey.new_empty_path PRE_GENESIS_VERSION) with
    | some _ =>
      { rootNodeKey := NodeKey.new_empty_path PRE_GENESIS_VERSION
      , nodeCache := [], staleNodeIndexCache := []
      , frozenNodeCache := [], frozenStaleNodeIndexCache := []
      , nextVersion := next_version }
    | none =>
      { rootNodeKey := NodeKey.new_empty_path 0
      , nodeCache := [(NodeKey.new_empty_path 0, Node.Null)]
      , staleNodeIndexCache := []
      , frozenNodeCache := [], frozenStaleNodeIndexCache := []
      , nextVersion := next_version }
  else
    { rootNodeKey := NodeKey.new_empty_path (next_version - 1)
    , nodeCache := [], staleNodeIndexCache := []
    , frozenNodeCache := [], frozenStaleNodeIndexCache := []
    , nextVersion := next_version }

/-- Modelled from the spec (§4.3): `put_node` inserts into the live
cache; duplicate insertion at the same `NodeKey` is an error (nodes are
write-once at a `NodeKey`). -/
def TreeCache.put_node (c : TreeCache) (key : NodeKey) (node : Node) :
    Except String TreeCache :=
  match alookup c.nodeCache key with
  | some _ => .error ("node with this key already exists in cache")
  | none => .ok { c with nodeCache := c.nodeCache ++ [(key, node)] }

/-- Modelled from the spec (§4.3): `delete_node` does *not* remove the
node from the cache; it records `(next_version, key)` into the stale
set, also for nodes created in this batch.  The `is_leaf` flag feeds
leaf counters only and has no effect here. -/
def TreeCache.delete_node (c : TreeCache) (key : NodeKey) (_is_leaf : Bool) : TreeCache :=
  { c with staleNodeIndexCache := c.staleNodeIndexCache ++ [(c.nextVersion, key)] }

/-- Modelled from the spec (§4.3): `freeze` moves the live cache and
live stale set into the frozen ones. -/
def TreeCache.freeze (c : TreeCache) : TreeCache :=
  { c with nodeCache := []
         , staleNodeIndexCache := []
         , frozenNodeCache := c.frozenNodeCache ++ c.nodeCache
         , frozenStaleNodeIndexCache :=
             c.frozenStaleNodeIndexCache ++ c.staleNodeIndexCache }

/-- Modelled from the spec (§4.3): `get_node` looks up the frozen cache,
then the live cache, then the reader; absence is the `MissingNode`
error. -/
def TreeCache.get_node (c : TreeCache) (store : List (NodeKey × Node))
    (key : NodeKey) : Except String Node :=
  match alookup c.frozenNodeCache key with
  | some n => .ok n
  | none =>
    match alookup c.nodeCache key with
    | some n => .ok n
    | none =>
      match alookup store key with
      | some n => .ok n
      | none => .error ("missing node")

/-- Modelled from the spec (§4.3): `into()` returns the root key and the
union of frozen and live contents as the `UpdateBatch`. -/
def TreeCache.into (c : TreeCache) : NodeKey × UpdateBatch :=
  (c.rootNodeKey,
   { node_batch := c.frozenNodeCache ++ c.nodeCache
   , stale_node_index_batch :=
       c.frozenStaleNodeIndexCache ++ c.staleNodeIndexCache })

/-- The S4 scenario (`test_freeze_with_delete`): start from an empty
store at `next_version = 0`, put two leaves, freeze, delete the first
leaf, returning the cache state just before the final freeze. -/
def s4_scenario (k1 k2 : NodeKey) (n1 n2 : Node) : Except String TreeCache :=
  match (TreeCache.new [] 0).put_node k1 n1 with
  | .error e => .error e
  | .ok c1 =>
    match c1.put_node k2 n2 with
    | .error e => .error e
    | .ok c2 => .ok ((c2.freeze).delete_node k1 true)

set_option maxRecDepth 40000

theorem allBitPositions_eq :
    allBitPositions =
      (List.range 256).map (fun p => ((31 - p / 8, p % 8) : Nat × Nat)) := by
  decide

theorem allBitPositions_length : allBitPositions.length = 256 := by decide

theorem allBitPositions_getD :
    ∀ k, k < 256 → allBitPositions.getD k (0, 0) = (31 - k / 8, k % 8) := by
  decide

theorem allBitPositions_drop_eq (k : Nat) (hk : k < 256) :
    allBitPositions.drop k =
      ((31 - k / 8, k % 8) : Nat × Nat) :: allBitPositions.drop (k + 1) := by
  have hlen : k < allBitPositions.length := by rw [allBitPositions_length]; exact hk
  rw [List.drop_eq_getElem_cons hlen]
  congr 1
  rw [← List.getD_eq_getElem allBitPositions (0, 0) hlen]
  exact allBitPositions_getD k hk

/-- Skipping decrements the counter and drops positions one for one. -/
theorem pathLoop_drop (kh : List Nat) (sib : List (List Nat)) :
    ∀ (ps : List (Nat × Nat)) (skip sibIdx : Nat), skip ≤ ps.length →
      pathLoop kh sib ps skip sibIdx = pathLoop kh sib (ps.drop skip) 0 sibIdx := by
  intro ps
  induction ps with
  | nil =>
    intro skip sibIdx h
    have : skip = 0 := Nat.le_zero.mp (by simpa using h)
    subst this
    rfl
  | cons p rest ih =>
    intro skip sibIdx h
    match skip with
    | 0 => rfl
    | skip + 1 =>
      have hpos : skip + 1 > 0 := Nat.succ_pos skip
      simp only [pathLoop, if_pos hpos, Nat.add_sub_cancel, List.drop_succ_cons]
      exact ih skip sibIdx (by simpa using Nat.lt_succ_iff.mp (Nat.lt_of_lt_of_le (Nat.lt_succ_self skip) (by simpa using h)))

/-- With no skip left and all sibling indices in bounds, the loop
produces exactly `opsFromPositions`. -/
theorem pathLoop_noskip (kh : List Nat) (sib : List (List Nat)) :
    ∀ (ps : List (Nat × Nat)) (sibIdx : Nat), sibIdx + ps.length ≤ sib.length →
      pathLoop kh sib ps 0 sibIdx = some (opsFromPositions kh sib ps sibIdx) := by
  intro ps
  induction ps with
  | nil => intro sibIdx _; rfl
  | cons p rest ih =>
    intro sibIdx h
    have hlt : sibIdx < sib.length := by
      simp only [List.length_cons] at h; omega
    have hget : sib.get? sibIdx = some (sib.getD sibIdx []) := by
      rw [List.get?_eq_getElem?, List.getElem?_eq_getElem hlt,
          List.getD_eq_getElem sib [] hlt]
    have hrest : sibIdx + 1 + rest.length ≤ sib.length := by
      simp only [List.length_cons] at h; omega
    simp only [pathLoop, opsFromPositions]
    rw [if_neg (by omega), hget, ih (sibIdx + 1) hrest]

/-- The skip-free tail of the position list, starting `m` positions from
the end, yields one op per remaining position with the expected bits. -/
theorem opsFromPositions_drop (kh : List Nat) (sib : List (List Nat)) :
    ∀ (m : Nat), m ≤ 256 → ∀ (sibIdx : Nat),
      opsFromPositions kh sib (allBitPositions.drop (256 - m)) sibIdx =
        (List.range m).map
          (fun j => innerOpForBit (bitAtPos kh (256 - m + j))
                                  (sib.getD (sibIdx + j) [])) := by
  intro m
  induction m with
  | zero =>
    intro _ sibIdx
    have hdrop : allBitPositions.drop 256 = [] := by
      rw [← allBitPositions_length]; exact List.drop_length _
    rw [Nat.sub_zero, hdrop, List.range_zero]
    rfl
  | succ m ih =>
    intro hm sibIdx
    have hk : 256 - (m + 1) < 256 := by omega
    rw [allBitPositions_drop_eq (256 - (m + 1)) hk]
    have h1 : 256 - (m + 1) + 1 = 256 - m := by omega
    simp only [opsFromPositions]
    rw [h1, ih (by omega) (sibIdx + 1)]
    rw [List.range_succ_eq_map, List.map_cons, List.map_map]
    congr 1
    apply List.map_congr_left
    intro j _
    simp only [Function.comp_apply, Nat.succ_eq_add_one, bitAtPos]
    have e1 : 256 - (m + 1) + (j + 1) = 256 - m + j := by omega
    have e2 : sibIdx + (j + 1) = sibIdx + 1 + j := by omega
    rw [e1, e2]

/-- Master characterization: for at most 256 siblings the loop succeeds
and produces `pathOps`. -/
theorem pathLoop_spec (kh : List Nat) (sib : List (List Nat))
    (h : sib.length ≤ 256) :
    pathLoop kh sib allBitPositions (256 - sib.length) 0 = some (pathOps kh sib) := by
  rw [pathLoop_drop kh sib allBitPositions (256 - sib.length) 0
      (by rw [allBitPositions_length]; omega)]
  rw [pathLoop_noskip kh sib _ 0
      (by simp only [List.length_drop, allBitPositions_length]; omega)]
  rw [opsFromPositions_drop kh sib sib.length h 0]
  unfold pathOps
  congr 1
  apply List.map_congr_left
  intro j _
  rw [Nat.zero_add]

/-- Closed form of the translation for at most 256 siblings. -/
theorem existence_proof_eq (key value : List Nat) (proof : SparseMerkleProof)
    (h : proof.siblings.length ≤ 256) :
    sparse_merkle_proof_to_ics23_existence_proof key value proof =
      some { key := sha256 key
           , value := value
           , path := pathOps (sha256 key) proof.siblings
           , leaf := some { hashOp := HASHOP_SHA256
                          , prehashKey := HASHOP_NO_HASH
                          , prehashValue := HASHOP_SHA256
                          , lengthOp := LENGTHOP_NOPFX
                          , pfx := LEAF_DOMAIN_SEPARATOR } } := by
  unfold sparse_merkle_proof_to_ics23_existence_proof
  rw [if_pos h, pathLoop_spec (sha256 key) proof.siblings h]

theorem pathOps_length (kh : List Nat) (sib : List (List Nat)) :
    (pathOps kh sib).length = sib.length := by
  unfold pathOps
  rw [List.length_map, List.length_range]

theorem pathOps_getD (kh : List Nat) (sib : List (List Nat)) (i : Nat)
    (hi : i < sib.length) (d : InnerOp) :
    (pathOps kh sib).getD i d =
      innerOpForBit (bitAtPos kh (256 - sib.length + i)) (sib.getD i []) := by
  have hlen : i < (pathOps kh sib).length := by rw [pathOps_length]; exact hi
  rw [List.getD_eq_getElem _ _ hlen]
  unfold pathOps
  rw [List.getElem_map, List.getElem_range]

/-! ### Decomposition of the big-endian byte value -/

theorem bytesToNatBE_acc (bs : List Nat) (acc : Nat) :
    bs.foldl (fun a b => a * 256 + b) acc =
      acc * 256 ^ bs.length + bs.foldl (fun a b => a * 256 + b) 0 := by
  induction bs generalizing acc with
  | nil => simp
  | cons b rest ih =>
    simp only [List.foldl_cons, List.length_cons]
    rw [ih (acc * 256 + b), ih (0 * 256 + b)]
    ring

theorem bytesToNatBE_cons (b : Nat) (rest : List Nat) :
    bytesToNatBE (b :: rest) = b * 256 ^ rest.length + bytesToNatBE rest := by
  unfold bytesToNatBE
  simp only [List.foldl_cons]
  rw [bytesToNatBE_acc rest (0 * 256 + b)]
  ring_nf

theorem bytesToNatBE_lt (bs : List Nat) (hb : ∀ b ∈ bs, b < 256) :
    bytesToNatBE bs < 256 ^ bs.length := by
  induction bs with
  | nil => simp [bytesToNatBE]
  | cons b rest ih =>
    rw [bytesToNatBE_cons, List.length_cons, pow_succ]
    have hbb : b < 256 := hb b (List.mem_cons_self b rest)
    have hr : bytesToNatBE rest < 256 ^ rest.length :=
      ih (fun x hx => hb x (List.mem_cons_of_mem b hx))
    calc b * 256 ^ rest.length + bytesToNatBE rest
        < b * 256 ^ rest.length + 256 ^ rest.length := by omega
      _ = (b + 1) * 256 ^ rest.length := by ring
      _ ≤ 256 * 256 ^ rest.length := by
          exact Nat.mul_le_mul_right _ (by omega)
      _ = 256 ^ rest.length * 256 := by ring

/-- Bit `p` (in increasing-significance order) of the big-endian value of
a byte string is bit `p % 8` of byte `length - 1 - p / 8`. -/
theorem bytesToNatBE_bit (bs : List Nat) (hb : ∀ b ∈ bs, b < 256) (p : Nat)
    (hp : p < 8 * bs.length) :
    (bytesToNatBE bs >>> p) &&& 1 =
      ((bs.getD (bs.length - 1 - p / 8) 0) >>> (p % 8)) &&& 1 := by
  induction bs generalizing p with
  | nil =>
    simp only [List.length_nil, Nat.mul_zero] at hp
    omega
  | cons b rest ih =>
    simp only [List.length_cons] at hp
    have h256 : (256 : Nat) ^ rest.length = 2 ^ (8 * rest.length) := by
      rw [show (256 : Nat) = 2 ^ 8 from rfl, ← pow_mul]
    have hpow : (0 : Nat) < 2 ^ p := Nat.pos_pow_of_pos p (by omega)
    rw [bytesToNatBE_cons]
    by_cases hcase : p < 8 * rest.length
    · -- the bit lies inside the lower bytes
      have hidx : (b :: rest).length - 1 - p / 8 = rest.length - 1 - p / 8 + 1 := by
        simp only [List.length_cons]; omega
      rw [hidx, List.getD_cons_succ]
      rw [← ih (fun x hx => hb x (List.mem_cons_of_mem b hx)) p hcase]
      -- (b * 2^(8L) + V) >>> p has the same low bit as V >>> p
      rw [Nat.shiftRight_eq_div_pow, Nat.shiftRight_eq_div_pow, h256]
      have hsplit : 8 * rest.length = (8 * rest.length - p) + p := by omega
      rw [hsplit, pow_add, ← Nat.mul_assoc]
      rw [Nat.add_comm (b * 2 ^ (8 * rest.length - p) * 2 ^ p) (bytesToNatBE rest)]
      rw [Nat.add_mul_div_right _ _ hpow]
      rw [Nat.and_one_is_mod, Nat.and_one_is_mod]
      have heven : b * 2 ^ (8 * rest.length - p) % 2 = 0 := by
        have hs : 8 * rest.length - p = (8 * rest.length - p - 1) + 1 := by omega
        rw [hs, pow_succ, ← Nat.mul_assoc]
        exact Nat.mul_mod_left _ 2
      omega
    · -- the bit lies inside the leading byte `b`
      have hidx : (b :: rest).length - 1 - p / 8 = 0 := by
        simp only [List.length_cons]; omega
      rw [hidx, List.getD_cons_zero]
      have hVlt : bytesToNatBE rest < 2 ^ (8 * rest.length) := by
        rw [← h256]
        exact bytesToNatBE_lt rest (fun x hx => hb x (List.mem_cons_of_mem b hx))
      rw [Nat.shiftRight_eq_div_pow, Nat.shiftRight_eq_div_pow, h256]
      have hsplit : 2 ^ p = 2 ^ (8 * rest.length) * 2 ^ (p - 8 * rest.length) := by
        rw [← pow_add]
        congr 1
        omega
      rw [hsplit, ← Nat.div_div_eq_div_mul]
      rw [Nat.mul_comm b, Nat.add_comm,
          Nat.add_mul_div_left _ _ (Nat.pos_pow_of_pos (8 * rest.length) (by omega))]
      rw [Nat.div_eq_of_lt hVlt, Nat.zero_add]
      have hmod : p % 8 = p - 8 * rest.length := by omega
      rw [hmod]

/-- The loop's byte/bit coordinates read the bits of the big-endian key
hash in increasing-significance (LSB-first) order: loop position `p`
reads the bit of significance `p`. -/
theorem bitAtPos_lsb_first (kh : List Nat) (hlen : kh.length = 32)
    (hb : ∀ b ∈ kh, b < 256) (p : Nat) (hp : p < 256) :
    bitAtPos kh p = (bytesToNatBE kh >>> p) &&& 1 := by
  unfold bitAtPos
  rw [bytesToNatBE_bit kh hb p (by omega)]
  have hidx : kh.length - 1 - p / 8 = 31 - p / 8 := by omega
  rw [hidx]

/-! ### Shape of the SHA-256 output -/

theorem shaProcessBlock_length (h block : List Nat) :
    (shaProcessBlock h block).length = 8 := rfl

theorem shaBlocksGo_length (fuel : Nat) :
    ∀ (h msg : List Nat), h.length = 8 → (shaBlocksGo fuel h msg).length = 8 := by
  induction fuel with
  | zero => intro h msg hh; exact hh
  | succ fuel ih =>
    intro h msg hh
    unfold shaBlocksGo
    split
    · exact hh
    · exact ih _ _ (shaProcessBlock_length _ _)

theorem shaBlocks_length (msg h : List Nat) (hh : h.length = 8) :
    (shaBlocks h msg).length = 8 :=
  shaBlocksGo_length _ h msg hh

theorem flatten_map_be32_length (l : List Nat) :
    ((l.map be32).flatten).length = 4 * l.length := by
  induction l with
  | nil => rfl
  | cons w rest ih =>
    simp only [List.map_cons, List.flatten_cons, List.length_append, ih,
               List.length_cons, be32]
    simp only [List.length_cons, List.length_nil]
    omega

theorem sha256_length (msg : List Nat) : (sha256 msg).length = 32 := by
  unfold sha256
  rw [flatten_map_be32_length, shaBlocks_length _ shaH0 (by rfl)]

theorem sha256_bytes_lt (msg : List Nat) : ∀ b ∈ sha256 msg, b < 256 := by
  intro b hb
  unfold sha256 at hb
  rw [List.mem_flatten] at hb
  obtain ⟨l, hl, hbl⟩ := hb
  rw [List.mem_map] at hl
  obtain ⟨w, _, rfl⟩ := hl
  simp only [be32, List.mem_cons, List.not_mem_nil, or_false] at hbl
  rcases hbl with h | h | h | h <;> subst h <;>
    exact Nat.mod_lt _ (by omega)

/-! ### Claim theorems for the existence-proof translation -/

/-- C10: for every `SparseMerkleProof` whose sibling list has length at
most 256, `sparse_merkle_proof_to_ics23_existence_proof` is total — the
subtraction `256 - siblings.len()` does not underflow, every index into
the sibling list is in bounds (each sibling is consumed exactly once; no
panic, modelled by the result being `some`), and the resulting path
contains exactly `siblings.length` `InnerOp`s. -/
theorem c10_existence_proof_total (key value : List Nat) (proof : SparseMerkleProof)
    (h : proof.siblings.length ≤ 256) :
    ∃ ep, sparse_merkle_proof_to_ics23_existence_proof key value proof = some ep ∧
      ep.path.length = proof.siblings.length := by
  rw [existence_proof_eq key value proof h]
  exact ⟨_, rfl, pathOps_length _ _⟩

/-- Witness for `c10_existence_proof_total` at a concrete input. -/
theorem c10_existence_proof_total_witness :
    (SparseMerkleProof.mk none [[1], [2], [3]]).siblings.length ≤ 256 ∧
    (∃ ep, sparse_merkle_proof_to_ics23_existence_proof [97] [118]
        (SparseMerkleProof.mk none [[1], [2], [3]]) = some ep ∧
      ep.path.length = (SparseMerkleProof.mk none [[1], [2], [3]]).siblings.length) :=
  ⟨by decide, c10_existence_proof_total [97] [118] _ (by decide)⟩

/-- C2: the translation emits exactly one `InnerOp` per sibling, each
with hash SHA-256; for the key-hash bit consumed with sibling `i` (loop
position `256 - n + i`): bit 1 gives `pfx = INTERNAL_DOMAIN_SEPARATOR ++
sibling` and empty `sfx`, bit 0 gives `pfx = INTERNAL_DOMAIN_SEPARATOR`
and `sfx = sibling`. -/
theorem c2_inner_op_shape (key value : List Nat) (proof : SparseMerkleProof)
    (h : proof.siblings.length ≤ 256) :
    ∃ ep, sparse_merkle_proof_to_ics23_existence_proof key value proof = some ep ∧
      ep.path.length = proof.siblings.length ∧
      ∀ i, i < proof.siblings.length →
        ep.path.getD i ⟨0, [], []⟩ =
          (if bitAtPos (sha256 key) (256 - proof.siblings.length + i) = 1 then
            { hashOp := HASHOP_SHA256
            , pfx := INTERNAL_DOMAIN_SEPARATOR ++ proof.siblings.getD i []
            , sfx := [] }
          else
            { hashOp := HASHOP_SHA256
            , pfx := INTERNAL_DOMAIN_SEPARATOR
            , sfx := proof.siblings.getD i [] }) := by
  rw [existence_proof_eq key value proof h]
  refine ⟨_, rfl, pathOps_length _ _, ?_⟩
  intro i hi
  rw [pathOps_getD _ _ i hi]
  rfl

/-- Witness for `c2_inner_op_shape` at a concrete input. -/
theorem c2_inner_op_shape_witness :
    (SparseMerkleProof.mk none [[1], [2]]).siblings.length ≤ 256 ∧
    (∃ ep, sparse_merkle_proof_to_ics23_existence_proof [97, 98] [120]
        (SparseMerkleProof.mk none [[1], [2]]) = some ep ∧
      ep.path.length = (SparseMerkleProof.mk none [[1], [2]]).siblings.length ∧
      ∀ i, i < (SparseMerkleProof.mk none [[1], [2]]).siblings.length →
        ep.path.getD i ⟨0, [], []⟩ =
          (if bitAtPos (sha256 [97, 98])
              (256 - (SparseMerkleProof.mk none [[1], [2]]).siblings.length + i) = 1 then
            { hashOp := HASHOP_SHA256
            , pfx := INTERNAL_DOMAIN_SEPARATOR ++
                (SparseMerkleProof.mk none [[1], [2]]).siblings.getD i []
            , sfx := [] }
          else
            { hashOp := HASHOP_SHA256
            , pfx := INTERNAL_DOMAIN_SEPARATOR
            , sfx := (SparseMerkleProof.mk none [[1], [2]]).siblings.getD i [] })) :=
  ⟨by decide, c2_inner_op_shape [97, 98] [120] _ (by decide)⟩

/-- C4 counterexample: at preimage `key = "key"` (bytes
`[107, 101, 121]`) with no siblings, the produced `ExistenceProof.key`
is not the preimage bytes — it is the 32-byte SHA-256 digest of the
preimage. -/
theorem c4_counterexample :
    Option.map ExistenceProof.key
        (sparse_merkle_proof_to_ics23_existence_proof [107, 101, 121]
          [118, 97, 108] (SparseMerkleProof.mk none [])) ≠
      some [107, 101, 121] ∧
    Option.map ExistenceProof.key
        (sparse_merkle_proof_to_ics23_existence_proof [107, 101, 121]
          [118, 97, 108] (SparseMerkleProof.mk none [])) =
      some [44, 112, 225, 43, 122, 6, 70, 249, 34, 121, 244, 39, 199, 179,
            142, 115, 52, 216, 229, 56, 156, 255, 22, 122, 29, 195, 14, 115,
            248, 38, 182, 131] := by
  constructor
  · decide
  · decide

/-- C4 amended: the `key` field of the produced `ExistenceProof` is the
SHA-256 key hash of the supplied preimage bytes (for exclusion-proof
neighbors the preimage obtained from `HasPreimage` is hashed the same
way), not the preimage itself. -/
theorem c4_key_is_key_hash (key value : List Nat) (proof : SparseMerkleProof)
    (h : proof.siblings.length ≤ 256) :
    ∃ ep, sparse_merkle_proof_to_ics23_existence_proof key value proof = some ep ∧
      ep.key = sha256 key := by
  rw [existence_proof_eq key value proof h]
  exact ⟨_, rfl, rfl⟩

/-- Witness for `c4_key_is_key_hash` at a concrete input. -/
theorem c4_key_is_key_hash_witness :
    (SparseMerkleProof.mk none []).siblings.length ≤ 256 ∧
    (∃ ep, sparse_merkle_proof_to_ics23_existence_proof [122] [1]
        (SparseMerkleProof.mk none []) = some ep ∧ ep.key = sha256 [122]) :=
  ⟨by decide, c4_key_is_key_hash [122] [1] _ (by decide)⟩

/-- C5 counterexample: with one sibling the loop consumes loop position
255, i.e. byte 0 / bit 7 of the key hash — the bit of significance 255 —
whereas an MSB-first iteration would consume the bit of significance 0
at that position; at preimage `"key"` those two bits differ, so the
produced path is not the MSB-first one claimed. -/
theorem c5_counterexample :
    Option.map ExistenceProof.path
        (sparse_merkle_proof_to_ics23_existence_proof [107, 101, 121] [118]
          (SparseMerkleProof.mk none [List.replicate 32 5])) ≠
      some (msbFirstPathOps (sha256 [107, 101, 121]) [List.replicate 32 5]) := by
  decide

/-- C5 amended: the path is built by iterating the 256 key-hash bits in
increasing-significance (LSB-first) order — from byte 31 down to byte 0
and bit 0 through 7 within each byte, so loop position `p` reads the bit
of significance `p` of the big-endian key hash — skipping the first
`256 − n` positions of that iteration (trailing placeholder siblings are
not expressed) and consuming one sibling per remaining bit in order. -/
theorem c5_path_bit_order (key value : List Nat) (proof : SparseMerkleProof)
    (h : proof.siblings.length ≤ 256) :
    allBitPositions =
        (List.range 256).map (fun p => ((31 - p / 8, p % 8) : Nat × Nat)) ∧
    (∀ p, p < 256 →
      bitAtPos (sha256 key) p = (bytesToNatBE (sha256 key) >>> p) &&& 1) ∧
    ∃ ep, sparse_merkle_proof_to_ics23_existence_proof key value proof = some ep ∧
      ep.path.length = proof.siblings.length ∧
      ∀ i, i < proof.siblings.length →
        ep.path.getD i ⟨0, [], []⟩ =
          innerOpForBit (bitAtPos (sha256 key) (256 - proof.siblings.length + i))
            (proof.siblings.getD i []) := by
  refine ⟨allBitPositions_eq, ?_, ?_⟩
  · intro p hp
    exact bitAtPos_lsb_first (sha256 key) (sha256_length key) (sha256_bytes_lt key) p hp
  · rw [existence_proof_eq key value proof h]
    refine ⟨_, rfl, pathOps_length _ _, ?_⟩
    intro i hi
    exact pathOps_getD _ _ i hi _

/-- Witness for `c5_path_bit_order` at a concrete input. -/
theorem c5_path_bit_order_witness :
    (SparseMerkleProof.mk none [[7]]).siblings.length ≤ 256 ∧
    (allBitPositions =
        (List.range 256).map (fun p => ((31 - p / 8, p % 8) : Nat × Nat)) ∧
    (∀ p, p < 256 →
      bitAtPos (sha256 [113]) p = (bytesToNatBE (sha256 [113]) >>> p) &&& 1) ∧
    ∃ ep, sparse_merkle_proof_to_ics23_existence_proof [113] [119]
        (SparseMerkleProof.mk none [[7]]) = some ep ∧
      ep.path.length = (SparseMerkleProof.mk none [[7]]).siblings.length ∧
      ∀ i, i < (SparseMerkleProof.mk none [[7]]).siblings.length →
        ep.path.getD i ⟨0, [], []⟩ =
          innerOpForBit
            (bitAtPos (sha256 [113])
              (256 - (SparseMerkleProof.mk none [[7]]).siblings.length + i))
            ((SparseMerkleProof.mk none [[7]]).siblings.getD i [])) :=
  ⟨by decide, c5_path_bit_order [113] [119] _ (by decide)⟩

/-! ### Claim theorems for the non-existence translation -/

/-- C3 counterexample: for a `Leftmost` exclusion the outer `key` field
is the neighbor leaf's key hash — not the queried key's hash — and for a
`Rightmost` exclusion it is the queried preimage bytes — again not the
queried key's hash.  Queried key `"nx"` (bytes `[110, 120]`), neighbor
leaf key hash `[1, 1, …, 1]`. -/
theorem c3_counterexample :
    (Except.toOption
        (exclusion_proof_to_ics23_nonexistence_proof
          (Reader.mk (fun h => if h = List.replicate 32 1 then some [112] else none)
                     (fun h => if h = List.replicate 32 1 then some [118] else none))
          [110, 120]
          (.Leftmost (SparseMerkleProof.mk
            (some (SmtLeaf.mk (List.replicate 32 1) (List.replicate 32 0))) [])))).map
        NonExistenceProof.key = some (List.replicate 32 1) ∧
    List.replicate 32 1 ≠ sha256 [110, 120] ∧
    (Except.toOption
        (exclusion_proof_to_ics23_nonexistence_proof
          (Reader.mk (fun h => if h = List.replicate 32 1 then some [112] else none)
                     (fun h => if h = List.replicate 32 1 then some [118] else none))
          [110, 120]
          (.Rightmost (SparseMerkleProof.mk
            (some (SmtLeaf.mk (List.replicate 32 1) (List.replicate 32 0))) [])))).map
        NonExistenceProof.key = some [110, 120] ∧
    ([110, 120] : List Nat) ≠ sha256 [110, 120] := by
  refine ⟨by decide, by decide, by decide, by decide⟩

/-- C3 amended: the outer `key` field of the `NonExistenceProof` equals
the *neighbor* leaf's key hash in the `Leftmost` variant and the queried
key's preimage bytes in the `Middle` and `Rightmost` variants; the
`right` field is set in `Leftmost`, the `left` field in `Rightmost`, and
both in `Middle`. -/
theorem c3_outer_key_fields (r : Reader) (key : List Nat) :
    (∀ p nep,
      exclusion_proof_to_ics23_nonexistence_proof r key (.Leftmost p) = .ok nep →
      (∃ leaf, p.leaf = some leaf ∧ nep.key = leaf.keyHash) ∧
      nep.left = none ∧ nep.right.isSome = true) ∧
    (∀ p q nep,
      exclusion_proof_to_ics23_nonexistence_proof r key (.Middle p q) = .ok nep →
      nep.key = key ∧ nep.left.isSome = true ∧ nep.right.isSome = true) ∧
    (∀ q nep,
      exclusion_proof_to_ics23_nonexistence_proof r key (.Rightmost q) = .ok nep →
      nep.key = key ∧ nep.left.isSome = true ∧ nep.right = none) := by
  refine ⟨?_, ?_, ?_⟩
  · intro p nep hok
    simp only [exclusion_proof_to_ics23_nonexistence_proof] at hok
    repeat' split at hok
    any_goals exact Except.noConfusion hok
    injection hok with hok
    subst hok
    exact ⟨⟨_, by assumption, rfl⟩, rfl, rfl⟩
  · intro p q nep hok
    simp only [exclusion_proof_to_ics23_nonexistence_proof] at hok
    repeat' split at hok
    any_goals exact Except.noConfusion hok
    injection hok with hok
    subst hok
    exact ⟨rfl, rfl, rfl⟩
  · intro q nep hok
    simp only [exclusion_proof_to_ics23_nonexistence_proof] at hok
    repeat' split at hok
    any_goals exact Except.noConfusion hok
    injection hok with hok
    subst hok
    exact ⟨rfl, rfl, rfl⟩

/-- Witness for `c3_outer_key_fields` at a concrete input (the same
`Leftmost` run as the counterexample above; the neighbor preimage is
`"p"` with value `[118]`). -/
theorem c3_outer_key_fields_witness :
    exclusion_proof_to_ics23_nonexistence_proof
        (Reader.mk (fun h => if h = List.replicate 32 1 then some [112] else none)
                   (fun h => if h = List.replicate 32 1 then some [118] else none))
        [110, 120]
        (.Leftmost (SparseMerkleProof.mk
          (some (SmtLeaf.mk (List.replicate 32 1) (List.replicate 32 0))) [])) =
      .ok (NonExistenceProof.mk (List.replicate 32 1) none
        (some { key := [20, 141, 233, 197, 167, 164, 77, 25, 229, 108, 217, 174,
                        26, 85, 75, 246, 120, 71, 175, 176, 197, 143, 110, 18,
                        250, 41, 172, 125, 223, 202, 153, 64]
              , value := [118]
              , path := []
              , leaf := some { hashOp := HASHOP_SHA256
                             , prehashKey := HASHOP_NO_HASH
                             , prehashValue := HASHOP_SHA256
                             , lengthOp := LENGTHOP_NOPFX
                             , pfx := LEAF_DOMAIN_SEPARATOR } })) ∧
    ((∃ leaf, (SparseMerkleProof.mk
          (some (SmtLeaf.mk (List.replicate 32 1) (List.replicate 32 0))) []).leaf =
            some leaf ∧
        (NonExistenceProof.mk (List.replicate 32 1) none
          (some { key := [20, 141, 233, 197, 167, 164, 77, 25, 229, 108, 217, 174,
                          26, 85, 75, 246, 120, 71, 175, 176, 197, 143, 110, 18,
                          250, 41, 172, 125, 223, 202, 153, 64]
                , value := [118]
                , path := []
                , leaf := some { hashOp := HASHOP_SHA256
                               , prehashKey := HASHOP_NO_HASH
                               , prehashValue := HASHOP_SHA256
                               , lengthOp := LENGTHOP_NOPFX
                               , pfx := LEAF_DOMAIN_SEPARATOR } })).key = leaf.keyHash) ∧
      (NonExistenceProof.mk (List.replicate 32 1) none
        (some { key := [20, 141, 233, 197, 167, 164, 77, 25, 229, 108, 217, 174,
                        26, 85, 75, 246, 120, 71, 175, 176, 197, 143, 110, 18,
                        250, 41, 172, 125, 223, 202, 153, 64]
              , value := [118]
              , path := []
              , leaf := some { hashOp := HASHOP_SHA256
                             , prehashKey := HASHOP_NO_HASH
                             , prehashValue := HASHOP_SHA256
                             , lengthOp := LENGTHOP_NOPFX
                             , pfx := LEAF_DOMAIN_SEPARATOR } })).left = none ∧
      (NonExistenceProof.mk (List.replicate 32 1) none
        (some { key := [20, 141, 233, 197, 167, 164, 77, 25, 229, 108, 217, 174,
                        26, 85, 75, 246, 120, 71, 175, 176, 197, 143, 110, 18,
                        250, 41, 172, 125, 223, 202, 153, 64]
              , value := [118]
              , path := []
              , leaf := some { hashOp := HASHOP_SHA256
                             , prehashKey := HASHOP_NO_HASH
                             , prehashValue := HASHOP_SHA256
                             , lengthOp := LENGTHOP_NOPFX
                             , pfx := LEAF_DOMAIN_SEPARATOR } })).right.isSome = true) :=
  have hok : exclusion_proof_to_ics23_nonexistence_proof
      (Reader.mk (fun h => if h = List.replicate 32 1 then some [112] else none)
                 (fun h => if h = List.replicate 32 1 then some [118] else none))
      [110, 120]
      (.Leftmost (SparseMerkleProof.mk
        (some (SmtLeaf.mk (List.replicate 32 1) (List.replicate 32 0))) [])) =
      .ok (NonExistenceProof.mk (List.replicate 32 1) none
        (some { key := [20, 141, 233, 197, 167, 164, 77, 25, 229, 108, 217, 174,
                        26, 85, 75, 246, 120, 71, 175, 176, 197, 143, 110, 18,
                        250, 41, 172, 125, 223, 202, 153, 64]
              , value := [118]
              , path := []
              , leaf := some { hashOp := HASHOP_SHA256
                             , prehashKey := HASHOP_NO_HASH
                             , prehashValue := HASHOP_SHA256
                             , lengthOp := LENGTHOP_NOPFX
                             , pfx := LEAF_DOMAIN_SEPARATOR } })) := by rfl
  ⟨hok, (c3_outer_key_fields _ [110, 120]).1 _ _ hok⟩

/-- C7: whenever the neighbor leaf of an exclusion proof has a key hash
with no preimage in the reader, the translation returns an error and no
`NonExistenceProof` is produced. -/
theorem c7_missing_preimage_error (r : Reader) (key : List Nat) :
    (∀ p leaf, p.leaf = some leaf → r.preimage leaf.keyHash = none →
      ∃ e, exclusion_proof_to_ics23_nonexistence_proof r key (.Leftmost p) =
        .error e) ∧
    (∀ p q leaf, (p.leaf = some leaf ∨ q.leaf = some leaf) →
      r.preimage leaf.keyHash = none →
      ∃ e, exclusion_proof_to_ics23_nonexistence_proof r key (.Middle p q) =
        .error e) ∧
    (∀ q leaf, q.leaf = some leaf → r.preimage leaf.keyHash = none →
      ∃ e, exclusion_proof_to_ics23_nonexistence_proof r key (.Rightmost q) =
        .error e) := by
  refine ⟨?_, ?_, ?_⟩
  · intro p leaf hleaf hpre
    simp only [exclusion_proof_to_ics23_nonexistence_proof, hleaf, hpre]
    exact ⟨_, rfl⟩
  · intro p q leaf hor hpre
    rcases hor with hleaf | hleaf
    · rcases hval : r.get leaf.keyHash with _ | v
      · simp only [exclusion_proof_to_ics23_nonexistence_proof, hleaf, hval]
        exact ⟨_, rfl⟩
      · simp only [exclusion_proof_to_ics23_nonexistence_proof, hleaf, hval, hpre]
        exact ⟨_, rfl⟩
    · rcases hpl : p.leaf with _ | lleaf
      · simp only [exclusion_proof_to_ics23_nonexistence_proof, hpl]
        exact ⟨_, rfl⟩
      · rcases hvl : r.get lleaf.keyHash with _ | vl
        · simp only [exclusion_proof_to_ics23_nonexistence_proof, hpl, hvl]
          exact ⟨_, rfl⟩
        · rcases hprel : r.preimage lleaf.keyHash with _ | prel
          · simp only [exclusion_proof_to_ics23_nonexistence_proof, hpl, hvl, hprel]
            exact ⟨_, rfl⟩
          · rcases hex : sparse_merkle_proof_to_ics23_existence_proof prel vl p
                with _ | lep
            · simp only [exclusion_proof_to_ics23_nonexistence_proof, hpl, hvl,
                         hprel, hex]
              exact ⟨_, rfl⟩
            · rcases hvr : r.get leaf.keyHash with _ | vr
              · simp only [exclusion_proof_to_ics23_nonexistence_proof, hpl, hvl,
                           hprel, hex, hleaf, hvr]
                exact ⟨_, rfl⟩
              · simp only [exclusion_proof_to_ics23_nonexistence_proof, hpl, hvl,
                           hprel, hex, hleaf, hvr, hpre]
                exact ⟨_, rfl⟩
  · intro q leaf hleaf hpre
    rcases hval : r.get leaf.keyHash with _ | v
    · simp only [exclusion_proof_to_ics23_nonexistence_proof, hleaf, hval]
      exact ⟨_, rfl⟩
    · simp only [exclusion_proof_to_ics23_nonexistence_proof, hleaf, hval, hpre]
      exact ⟨_, rfl⟩

/-- Witness for `c7_missing_preimage_error` at a concrete input: a
reader with no preimages at all. -/
theorem c7_missing_preimage_error_witness :
    ((SparseMerkleProof.mk (some (SmtLeaf.mk (List.replicate 32 2) [])) []).leaf =
        some (SmtLeaf.mk (List.replicate 32 2) []) ∧
      (Reader.mk (fun _ => none) (fun _ => some [0])).preimage
        (SmtLeaf.mk (List.replicate 32 2) []).keyHash = none) ∧
    ∃ e, exclusion_proof_to_ics23_nonexistence_proof
        (Reader.mk (fun _ => none) (fun _ => some [0])) [1]
        (.Leftmost (SparseMerkleProof.mk
          (some (SmtLeaf.mk (List.replicate 32 2) [])) [])) = .error e :=
  ⟨⟨rfl, rfl⟩,
   (c7_missing_preimage_error (Reader.mk (fun _ => none) (fun _ => some [0])) [1]).1
     _ _ rfl rfl⟩

/-! ### Claim theorem for `ics23_spec` -/

/-- C6: `ics23_spec()` returns a `ProofSpec` with exactly
`prehash_compared_key = SHA-256`, `prehash_compared_value = NoHash`,
child order `[0, 1]`, `min_prefix_length = max_prefix_length =
|INTERNAL_DOMAIN_SEPARATOR|`, `child_size = 32`, `empty_child` the
sparse-Merkle placeholder hash, `min_depth = 0` and `max_depth = 64`. -/
theorem c6_ics23_spec_fields :
    ics23_spec.prehashComparedKey = HASHOP_SHA256 ∧
    ics23_spec.prehashComparedValue = HASHOP_NO_HASH ∧
    ics23_spec.innerSpec =
      some { hashOp := HASHOP_SHA256
           , childOrder := [0, 1]
           , minPfxLen := INTERNAL_DOMAIN_SEPARATOR.length
           , maxPfxLen := INTERNAL_DOMAIN_SEPARATOR.length
           , childSize := 32
           , emptyChild := SPARSE_MERKLE_PLACEHOLDER_HASH } ∧
    ics23_spec.minDepth = 0 ∧
    ics23_spec.maxDepth = 64 :=
  ⟨rfl, rfl, rfl, rfl, rfl⟩

/-! ### Claim theorems for the TreeCache (spec-modelled) -/

/-- C8: for every store containing a node at
`(PRE_GENESIS_VERSION, empty_path)`, `TreeCache::new(store, 0)` succeeds
(construction is total over a total reader) and seeds `root_node_key` to
that pre-genesis `NodeKey` — with no hypothesis needed about a root at
any other version. -/
theorem c8_pre_genesis_seed (store : List (NodeKey × Node)) (node : Node)
    (h : alookup store (NodeKey.new_empty_path PRE_GENESIS_VERSION) = some node) :
    (TreeCache.new store 0).rootNodeKey =
      NodeKey.new_empty_path PRE_GENESIS_VERSION := by
  unfold TreeCache.new
  rw [if_pos rfl, h]

/-- Witness for `c8_pre_genesis_seed` at a concrete one-node store. -/
theorem c8_pre_genesis_seed_witness :
    alookup [(NodeKey.new_empty_path PRE_GENESIS_VERSION, Node.Leaf [1] [2])]
        (NodeKey.new_empty_path PRE_GENESIS_VERSION) = some (Node.Leaf [1] [2]) ∧
    (TreeCache.new [(NodeKey.new_empty_path PRE_GENESIS_VERSION, Node.Leaf [1] [2])]
        0).rootNodeKey = NodeKey.new_empty_path PRE_GENESIS_VERSION :=
  ⟨by decide,
   c8_pre_genesis_seed _ (Node.Leaf [1] [2]) (by decide)⟩

/-- C9: starting from an empty store at `next_version = 0`, putting two
leaves, freezing, deleting one leaf and freezing again yields an
`UpdateBatch` with exactly 3 nodes (the two leaves plus the `Null` root
staged at construction) and exactly 1 stale entry `(0, k1)`;
`delete_node` does not remove the node from the cache — it is still
readable — even though the node was created in this batch. -/
theorem c9_freeze_with_delete (k1 k2 : NodeKey) (n1 n2 : Node)
    (h12 : k1 ≠ k2) (h1 : k1 ≠ NodeKey.new_empty_path 0)
    (h2 : k2 ≠ NodeKey.new_empty_path 0) :
    ∃ c, s4_scenario k1 k2 n1 n2 = .ok c ∧
      c.get_node [] k1 = .ok n1 ∧
      (c.freeze.into).2.node_batch.length = 3 ∧
      (c.freeze.into).2.stale_node_index_batch = [(0, k1)] := by
  refine ⟨{ rootNodeKey := NodeKey.new_empty_path 0
          , nodeCache := []
          , staleNodeIndexCache := [(0, k1)]
          , frozenNodeCache := [(NodeKey.new_empty_path 0, Node.Null), (k1, n1), (k2, n2)]
          , frozenStaleNodeIndexCache := []
          , nextVersion := 0 }, ?_, ?_, ?_, ?_⟩
  · simp [s4_scenario, TreeCache.new, TreeCache.put_node, TreeCache.freeze,
          TreeCache.delete_node, alookup, h1, h2, Ne.symm h12]
  · simp [TreeCache.get_node, alookup, h1]
  · simp only [TreeCache.freeze, TreeCache.into, List.append_nil, List.nil_append]
    rfl
  · simp only [TreeCache.freeze, TreeCache.into, List.append_nil, List.nil_append]

/-- Witness for `c9_freeze_with_delete` at concrete keys and leaves. -/
theorem c9_freeze_with_delete_witness :
    ((⟨0, [1]⟩ : NodeKey) ≠ (⟨0, [2]⟩ : NodeKey) ∧
      (⟨0, [1]⟩ : NodeKey) ≠ NodeKey.new_empty_path 0 ∧
      (⟨0, [2]⟩ : NodeKey) ≠ NodeKey.new_empty_path 0) ∧
    ∃ c, s4_scenario ⟨0, [1]⟩ ⟨0, [2]⟩ (Node.Leaf [3] [4]) (Node.Leaf [5] [6]) =
        .ok c ∧
      c.get_node [] ⟨0, [1]⟩ = .ok (Node.Leaf [3] [4]) ∧
      (c.freeze.into).2.node_batch.length = 3 ∧
      (c.freeze.into).2.stale_node_index_batch = [(0, ⟨0, [1]⟩)] :=
  ⟨⟨by decide, by decide, by decide⟩,
   c9_freeze_with_delete ⟨0, [1]⟩ ⟨0, [2]⟩ (Node.Leaf [3] [4]) (Node.Leaf [5] [6])
     (by decide) (by decide) (by decide)⟩

end Jmt
